import Mathlib

/-!
Verification of the Spenditure cash-flow forecasting engine
(`generateMockForecast` and its helpers), shallowly embedded from the
TypeScript source.  JavaScript `Date` values at local midnight are modelled
as proleptic-Gregorian calendar dates; `getTime()` comparisons and the
ISO-string day keys both reduce to the epoch-day number `toDays`.
Amounts and balances are modelled as rationals.
-/

namespace Spenditure

/-! Calendar model.  A `CalDate` is a JS `Date` at midnight, broken into
year / month (0-based, as in `getMonth`) / day (1-based, as in `getDate`). -/

structure CalDate where
  year : Nat
  month : Nat
  day : Nat
deriving DecidableEq, Repr

/-- Gregorian leap-year rule (as used by JS `Date`). -/
def isLeap (y : Nat) : Bool := y % 4 == 0 && (y % 100 != 0 || y % 400 == 0)

/-- Number of days in month `m` (0-based) of year `y`. -/
def daysInMonth (y m : Nat) : Nat :=
  if m = 1 then (if isLeap y then 29 else 28)
  else if m = 3 ∨ m = 5 ∨ m = 8 ∨ m = 10 then 30
  else 31

/-- Days from 0000-01-01 (proleptic Gregorian) to the start of year `y`. -/
def daysBeforeYear (y : Nat) : Nat :=
  365 * y + (y + 3) / 4 - (y + 99) / 100 + (y + 399) / 400

/-- Days from the start of year `y` to the start of month `m` (0-based). -/
def daysBeforeMonth (y : Nat) : Nat → Nat
  | 0 => 0
  | m + 1 => daysBeforeMonth y m + daysInMonth y m

/-- Epoch-day number of a calendar date: this is the role played by
`Date.getTime()` (divided by one day) and by the ISO date-string key in the
source, both of which are injective images of the midnight timestamp. -/
def toDays (d : CalDate) : Nat :=
  daysBeforeYear d.year + daysBeforeMonth d.year d.month + (d.day - 1)

/-- Successor day in the calendar. -/
def nextDay (d : CalDate) : CalDate :=
  if d.day < daysInMonth d.year d.month then ⟨d.year, d.month, d.day + 1⟩
  else if d.month < 11 then ⟨d.year, d.month + 1, 1⟩
  else ⟨d.year + 1, 0, 1⟩

/-- Add `n` days to a calendar date. -/
def addDays (d : CalDate) : Nat → CalDate
  | 0 => d
  | n + 1 => nextDay (addDays d n)

/-- Well-formedness of a calendar date: every JS `Date` decomposes into a
triple satisfying this predicate. -/
def WF (d : CalDate) : Prop :=
  d.month < 12 ∧ 1 ≤ d.day ∧ d.day ≤ daysInMonth d.year d.month

instance (d : CalDate) : Decidable (WF d) := by unfold WF; infer_instance

/-- JS `new Date(y, m, day)` normalization for `day ≥ 1`: month overflow
rolls into the year, day overflow rolls into following months. -/
def mkDateJS (y m day : Nat) : CalDate :=
  addDays ⟨y + m / 12, m % 12, 1⟩ (day - 1)

/-- JS `d.setDate(n)` for `n ≥ 1`: set the day within the current month,
overflowing forward. -/
def setDateJS (d : CalDate) (n : Nat) : CalDate := mkDateJS d.year d.month n

/-- JS `d.setMonth(m)`: keep year and day-of-month, normalizing overflow. -/
def setMonthJS (d : CalDate) (m : Nat) : CalDate := mkDateJS d.year m d.day

/-- JS `d.setFullYear(y)`: keep month and day-of-month, normalizing. -/
def setFullYearJS (d : CalDate) (y : Nat) : CalDate := mkDateJS y d.month d.day

/-- JS `new Date(y, m, 0)`: day zero, i.e. the last day of month `m - 1`. -/
def monthDayZero (y m : Nat) : CalDate :=
  if m = 0 then ⟨y - 1, 11, 31⟩
  else ⟨y + (m - 1) / 12, (m - 1) % 12,
        daysInMonth (y + (m - 1) / 12) ((m - 1) % 12)⟩

/-- JS `d.getDay()`: 0 = Sunday.  2000-01-01 was a Saturday and has
epoch-day number divisible by 7, so the offset is 6. -/
def dayOfWeek (d : CalDate) : Nat := (toDays d + 6) % 7

/-! Data model of the engine, mirroring the TypeScript interfaces.
Monetary amounts are rationals; `createdAt` timestamps are epoch numbers. -/

inductive SalaryFrequency
  | weekly
  | fortnightly
  | monthly
deriving DecidableEq, Repr

inductive LoanFrequency
  | monthly
  | quarterly
  | annually
deriving DecidableEq, Repr

structure IncomeItem where
  id : String
  client : String
  amount : ℚ
  dueDate : CalDate
  status : String
  createdAt : Nat
deriving DecidableEq, Repr

structure ExpenseItem where
  id : String
  vendor : String
  amount : ℚ
  category : String
  date : CalDate
  description : String
  createdAt : Nat
deriving DecidableEq, Repr

structure DeductionItem where
  name : String
  amount : ℚ
deriving DecidableEq, Repr

structure LoanItem where
  id : String
  loanName : String
  amount : ℚ
  paymentFrequency : LoanFrequency
  nextPaymentDate : CalDate
deriving DecidableEq, Repr

structure UserProfile where
  currentBalance : ℚ
  salaryIncome : ℚ
  salaryFrequency : SalaryFrequency
  name : String
  numberOfDaysOffPerMonth : Nat
  deductions : List DeductionItem
  loans : List LoanItem
deriving DecidableEq, Repr

structure ProjPoint where
  date : Nat
  balance : ℚ
deriving DecidableEq, Repr

structure ForecastResult where
  forecastData : List ProjPoint
  potentialShortfallDate : Option Nat
  projectedSalaryPayments : List IncomeItem
deriving DecidableEq, Repr

/-! The forecasting engine, embedded from `generateMockForecast`.
The wall-clock values of the source (`new Date()` normalized to midnight
for `today`, and the raw instant used for `createdAt`) are passed in as
the parameters `today` and `now`. -/

/-- Filter applied to incomes: status Outstanding and due today or later. -/
def incomeEligible (todayKey : Nat) (inc : IncomeItem) : Bool :=
  inc.status == "Outstanding" && Nat.ble todayKey (toDays inc.dueDate)

/-- Filter applied to expenses: dated today or later. -/
def expenseEligible (todayKey : Nat) (exp : ExpenseItem) : Bool :=
  Nat.ble todayKey (toDays exp.date)

/-- Scan for the latest relevant date, starting from `today`, over eligible
incomes then eligible expenses (the two `forEach` loops of the source). -/
def maxRelevantDate (today : CalDate) (incomes : List IncomeItem)
    (expenses : List ExpenseItem) : CalDate :=
  let tk := toDays today
  let m1 := incomes.foldl (fun acc inc =>
    if incomeEligible tk inc && Nat.blt (toDays acc) (toDays inc.dueDate)
    then inc.dueDate else acc) today
  expenses.foldl (fun acc exp =>
    if expenseEligible tk exp && Nat.blt (toDays acc) (toDays exp.date)
    then exp.date else acc) m1

/-- Horizon length: `max(daysToProject, 30)` where `daysToProject` is the
day count from today to the latest relevant date. -/
def effectiveProjectionDays (today : CalDate) (incomes : List IncomeItem)
    (expenses : List ExpenseItem) : Nat :=
  max (toDays (maxRelevantDate today incomes expenses) - toDays today) 30

/-- The per-day aggregation map `transactionsByDay` after the income and
expense passes.  The map is read only through `get(k) || 0`, so it is
modelled as a total function with default 0, keyed by epoch day. -/
def baseTx (todayKey : Nat) (incomes : List IncomeItem)
    (expenses : List ExpenseItem) : Nat → ℚ :=
  let t1 := incomes.foldl (fun tx inc =>
    if incomeEligible todayKey inc then
      fun k => if k = toDays inc.dueDate then tx k + inc.amount else tx k
    else tx) (fun _ => 0)
  expenses.foldl (fun tx exp =>
    if expenseEligible todayKey exp then
      fun k => if k = toDays exp.date then tx k - exp.amount else tx k
    else tx) t1

/-- Pay periods per month by salary frequency (1, 2 approx, 4 approx). -/
def numPayrollsPerMonth : SalaryFrequency → ℚ
  | .monthly => 1
  | .fortnightly => 2
  | .weekly => 4

/-- Display name of a salary frequency, as interpolated by the source. -/
def frequencyName : SalaryFrequency → String
  | .weekly => "weekly"
  | .fortnightly => "fortnightly"
  | .monthly => "monthly"

/-- Next payday from a cursor date, embedded from `getNextPayday`.  The
source returns null only for a frequency outside the three enumerated
values, which the inductive type excludes. -/
def getNextPayday (currentDate : CalDate) (frequency : SalaryFrequency) : CalDate :=
  match frequency with
  | .monthly =>
    let np1 := setDateJS currentDate 15
    let np2 := if toDays np1 < toDays currentDate
               then setDateJS (setMonthJS np1 (np1.month + 1)) 15 else np1
    let np3 := if np2.day < currentDate.day ∧ np2.month = currentDate.month
               then setMonthJS np2 (np2.month + 1) else np2
    if np3.month ≠ (currentDate.month +
        (if toDays np3 < toDays currentDate then 1 else 0)) % 12
    then monthDayZero np3.year np3.month
    else np3
  | .fortnightly =>
    let np := if currentDate.day ≤ 1 then setDateJS currentDate 1
              else if currentDate.day ≤ 15 then setDateJS currentDate 15
              else setDateJS (setMonthJS currentDate (currentDate.month + 1)) 1
    if toDays np < toDays currentDate then setDateJS np (np.day + 14) else np
  | .weekly =>
    let dow := dayOfWeek currentDate
    let add := if dow = 0 then 1 else if dow = 1 then 7 else 8 - dow
    let np := setDateJS currentDate (currentDate.day + add)
    if toDays np < toDays currentDate then setDateJS np (np.day + 7) else np

/-- Salary payday loop: the `while` loop with its 100-iteration safety
bound, modelled with the remaining iteration budget as fuel. -/
def salaryLoop (freq : SalaryFrequency) (salaryPerPayPeriod : ℚ)
    (limitKey : Nat) (now : Nat) :
    Nat → CalDate → Nat → (Nat → ℚ) → List IncomeItem →
    ((Nat → ℚ) × List IncomeItem)
  | 0, _, _, tx, evs => (tx, evs)
  | fuel + 1, tempDate, loopCount, tx, evs =>
    if toDays tempDate ≤ limitKey then
      let nextPay := getNextPayday tempDate freq
      if toDays nextPay ≤ limitKey then
        let key := toDays nextPay
        let tx2 := fun k => if k = key then tx k + salaryPerPayPeriod else tx k
        let ev : IncomeItem :=
          { id := "salary-" ++ toString key ++ "-" ++ toString loopCount
            client := "Salary Payment (" ++ frequencyName freq ++ ")"
            amount := salaryPerPayPeriod
            dueDate := nextPay
            status := "Outstanding"
            createdAt := now }
        salaryLoop freq salaryPerPayPeriod limitKey now fuel
          (setDateJS nextPay (nextPay.day + 1)) (loopCount + 1) tx2 (evs ++ [ev])
      else (tx, evs)
    else (tx, evs)

/-- Salary projection stage: returns the updated aggregation map and the
list of synthetic salary payment events. -/
def salaryResult (today : CalDate) (now : Nat) (effDays : Nat)
    (tx : Nat → ℚ) (userProfile : Option UserProfile) :
    (Nat → ℚ) × List IncomeItem :=
  match userProfile with
  | none => (tx, [])
  | some up =>
    if 0 < up.salaryIncome then
      let totalMonthlyDeductions :=
        up.deductions.foldl (fun s d => s + d.amount) 0
      let netMonthlySalary := up.salaryIncome - totalMonthlyDeductions
      let salaryPerPayPeriod :=
        netMonthlySalary / numPayrollsPerMonth up.salaryFrequency
      salaryLoop up.salaryFrequency salaryPerPayPeriod
        (toDays today + effDays + 1) now 100 today 0 tx []
    else (tx, [])

/-- Advance a loan payment date by its frequency (JS `setMonth` month
arithmetic, `setFullYear` for annual). -/
def advanceLoanDate (freq : LoanFrequency) (p : CalDate) : CalDate :=
  match freq with
  | .monthly => setMonthJS p (p.month + 1)
  | .quarterly => setMonthJS p (p.month + 3)
  | .annually => setFullYearJS p (p.year + 1)

/-- Loan projection inner loop over walk-day offsets: on an exact date
match, subtract the loan amount and advance the payment date. -/
def loanGo (todayKey : Nat) (amount : ℚ) (freq : LoanFrequency) :
    List Nat → (Nat → ℚ) → CalDate → ((Nat → ℚ) × CalDate)
  | [], tx, p => (tx, p)
  | i :: is, tx, p =>
    if todayKey + i = toDays p then
      loanGo todayKey amount freq is
        (fun k => if k = todayKey + i then tx k - amount else tx k)
        (advanceLoanDate freq p)
    else loanGo todayKey amount freq is tx p

/-- Loan projection for one loan across the horizon. -/
def loanWalk (todayKey : Nat) (effDays : Nat) (loan : LoanItem)
    (tx : Nat → ℚ) : Nat → ℚ :=
  (loanGo todayKey loan.amount loan.paymentFrequency
    (List.range (effDays + 1)) tx loan.nextPaymentDate).1

/-- Loan projection stage over all loans of the profile. -/
def loansTx (today : CalDate) (effDays : Nat) (tx : Nat → ℚ)
    (userProfile : Option UserProfile) : Nat → ℚ :=
  match userProfile with
  | none => tx
  | some up => up.loans.foldl (fun t loan => loanWalk (toDays today) effDays loan t) tx

/-- The fully aggregated per-day map, after incomes, expenses, salary and
loans have been folded in. -/
def finalTx (today : CalDate) (now : Nat) (incomes : List IncomeItem)
    (expenses : List ExpenseItem) (userProfile : Option UserProfile) : Nat → ℚ :=
  let effDays := effectiveProjectionDays today incomes expenses
  loansTx today effDays
    (salaryResult today now effDays
      (baseTx (toDays today) incomes expenses) userProfile).1 userProfile

/-- Daily walk: runs `steps` loop iterations starting at day offset `i`,
returning the emitted points and the final shortfall flag. -/
def dailyWalkGo (todayKey : Nat) (tx : Nat → ℚ) :
    Nat → Nat → ℚ → Option Nat → (List ProjPoint × Option Nat)
  | 0, _, _, sf => ([], sf)
  | steps + 1, i, bal, sf =>
    let change := tx (todayKey + i)
    let bal2 := bal + change
    let sf2 := if bal2 < 0 ∧ sf = none then some (todayKey + i) else sf
    let rest := dailyWalkGo todayKey tx steps (i + 1) bal2 sf2
    (⟨todayKey + i, bal2⟩ :: rest.1, rest.2)

/-- Last calendar day of month `m` (0-based) of year `y`. -/
def lastDayOfMonth (y m : Nat) : CalDate := ⟨y, m, daysInMonth y m⟩

/-- Epoch-day number of the first day of month `m` of year `y`, where `m`
is 0-based and may exceed 11 (rolling into later years). -/
def monthStartDays (y m : Nat) : Nat :=
  daysBeforeYear (y + m / 12) + daysBeforeMonth (y + m / 12) (m % 12)

/-- Maximum epoch-day key over the filtered records, as worded by the
specification: the latest of today, the eligible income due dates and the
eligible expense dates. -/
def specMaxKey (today : CalDate) (incomes : List IncomeItem)
    (expenses : List ExpenseItem) : Nat :=
  (((incomes.filter (incomeEligible (toDays today))).map
      (fun i => toDays i.dueDate)) ++
   ((expenses.filter (expenseEligible (toDays today))).map
      (fun e => toDays e.date))).foldl max (toDays today)

/-- The forecasting engine, embedded from `generateMockForecast`. -/
def generateMockForecast (today : CalDate) (now : Nat) (currentBalance : ℚ)
    (incomes : List IncomeItem) (expenses : List ExpenseItem)
    (userProfile : Option UserProfile) : ForecastResult :=
  let todayKey := toDays today
  let effDays := effectiveProjectionDays today incomes expenses
  let sal := salaryResult today now effDays
    (baseTx todayKey incomes expenses) userProfile
  let tx := loansTx today effDays sal.1 userProfile
  let walk := dailyWalkGo todayKey tx (effDays + 1) 0 currentBalance none
  { forecastData := ⟨todayKey, currentBalance⟩ :: walk.1
    potentialShortfallDate := walk.2
    projectedSalaryPayments := sal.2 }

/-- Running balance of the daily walk after applying the aggregated net
changes of day offsets 0 through i. -/
def runningBalance (today : CalDate) (now : Nat) (cb : ℚ)
    (incomes : List IncomeItem) (expenses : List ExpenseItem)
    (prof : Option UserProfile) (i : Nat) : ℚ :=
  cb + (Finset.range (i + 1)).sum
    (fun t => finalTx today now incomes expenses prof (toDays today + t))


/-! Concrete sample inputs used for counterexamples and witnesses. -/

/-- A sample today: 2025-01-01 (a Wednesday). -/
def sampleToday : CalDate := ⟨2025, 0, 1⟩

/-- Profile with a monthly salary of 30000 and deductions summing to 5000. -/
def c4Profile : UserProfile :=
  { currentBalance := 0
    salaryIncome := 30000
    salaryFrequency := .monthly
    name := ""
    numberOfDaysOffPerMonth := 0
    deductions := [⟨"tax", 5000⟩]
    loans := [] }

/-- The second synthetic salary event produced from `sampleToday` with
`c4Profile`: it falls on 2025-01-31, the last day of the month. -/
def c4SecondEvent : IncomeItem :=
  { id := "salary-739647-1"
    client := "Salary Payment (monthly)"
    amount := 25000
    dueDate := ⟨2025, 0, 31⟩
    status := "Outstanding"
    createdAt := 0 }

/-- Expense of 100 due one day after `sampleToday`. -/
def c2Expense : ExpenseItem :=
  { id := "e1"
    vendor := "v"
    amount := 100
    category := "c"
    date := ⟨2025, 0, 2⟩
    description := ""
    createdAt := 0 }

/-- Horizon-extending expense dated forty days after `today`. -/
def c5Expense (today : CalDate) : ExpenseItem :=
  { id := "e40"
    vendor := "v"
    amount := 1
    category := "c"
    date := addDays today 40
    description := ""
    createdAt := 0 }

/-- Monthly loan of 2000 with next payment three days after `today`. -/
def c5Loan (today : CalDate) : LoanItem :=
  { id := "l1"
    loanName := "car"
    amount := 2000
    paymentFrequency := .monthly
    nextPaymentDate := addDays today 3 }

/-- Profile with no salary and only the monthly loan above. -/
def c5Profile (today : CalDate) : UserProfile :=
  { currentBalance := 0
    salaryIncome := 0
    salaryFrequency := .monthly
    name := ""
    numberOfDaysOffPerMonth := 0
    deductions := []
    loans := [c5Loan today] }

/-- Loan whose next payment date lies strictly before `sampleToday`. -/
def c10Loan : LoanItem :=
  { id := "l0"
    loanName := "old"
    amount := 500
    paymentFrequency := .monthly
    nextPaymentDate := ⟨2024, 11, 31⟩ }

/-! Calendar arithmetic lemmas. -/

theorem daysInMonth_ge (y m : Nat) : 28 ≤ daysInMonth y m := by
  unfold daysInMonth
  split
  · split <;> omega
  · split <;> omega

theorem daysInMonth_le (y m : Nat) : daysInMonth y m ≤ 31 := by
  unfold daysInMonth
  split
  · split <;> omega
  · split <;> omega

theorem daysBeforeMonth_le (y : Nat) : ∀ m, daysBeforeMonth y m ≤ 31 * m
  | 0 => by simp [daysBeforeMonth]
  | m + 1 => by
    have h1 := daysBeforeMonth_le y m
    have h2 := daysInMonth_le y m
    simp only [daysBeforeMonth]
    omega

theorem daysBeforeMonth_twelve (y : Nat) :
    daysBeforeMonth y 12 = 365 + (if isLeap y then 1 else 0) := by
  cases h : isLeap y <;>
    simp [daysBeforeMonth, daysInMonth, h]

theorem isLeap_iff (y : Nat) :
    isLeap y = true ↔ (y % 4 = 0 ∧ (y % 100 ≠ 0 ∨ y % 400 = 0)) := by
  unfold isLeap
  simp [Bool.and_eq_true, Bool.or_eq_true, beq_iff_eq, bne_iff_ne]

set_option maxHeartbeats 2000000 in
theorem daysBeforeYear_succ_arith (y l : Nat)
    (hl : (l = 1 ∧ y % 4 = 0 ∧ (y % 100 ≠ 0 ∨ y % 400 = 0)) ∨
          (l = 0 ∧ ¬(y % 4 = 0 ∧ (y % 100 ≠ 0 ∨ y % 400 = 0)))) :
    daysBeforeYear (y + 1) = daysBeforeYear y + 365 + l := by
  unfold daysBeforeYear
  omega

theorem daysBeforeYear_succ (y : Nat) :
    daysBeforeYear (y + 1) = daysBeforeYear y + 365 + (if isLeap y then 1 else 0) := by
  have hiff := isLeap_iff y
  cases h : isLeap y
  · simp only [h, Bool.false_eq_true, if_false]
    refine daysBeforeYear_succ_arith y 0 (Or.inr ⟨rfl, ?_⟩)
    rw [← hiff, h]
    simp
  · simp only [h, if_true]
    exact daysBeforeYear_succ_arith y 1 (Or.inl ⟨rfl, hiff.mp h⟩)

theorem toDays_nextDay (d : CalDate) (h : WF d) :
    toDays (nextDay d) = toDays d + 1 := by
  obtain ⟨hm, hd1, hd2⟩ := h
  unfold nextDay
  split
  · next hlt =>
    unfold toDays
    dsimp only
    omega
  · next hge =>
    split
    · next hm11 =>
      unfold toDays
      dsimp only
      have hstep : daysBeforeMonth d.year (d.month + 1) =
          daysBeforeMonth d.year d.month + daysInMonth d.year d.month := rfl
      omega
    · next hm11 =>
      have hm' : d.month = 11 := by omega
      unfold toDays
      dsimp only
      have hsum : daysBeforeMonth d.year 12 =
          daysBeforeMonth d.year 11 + daysInMonth d.year 11 := rfl
      have hs := daysBeforeYear_succ d.year
      have h12 := daysBeforeMonth_twelve d.year
      have h0 : daysBeforeMonth (d.year + 1) 0 = 0 := rfl
      rw [hm'] at hge hd2 ⊢
      omega

theorem nextDay_WF (d : CalDate) (h : WF d) : WF (nextDay d) := by
  obtain ⟨hm, hd1, hd2⟩ := h
  unfold nextDay
  split
  · next hlt => exact ⟨hm, Nat.le_succ_of_le hd1, hlt⟩
  · split
    · next hm11 =>
      exact ⟨by dsimp only; omega, Nat.le_refl 1,
        Nat.le_trans (show (1 : Nat) ≤ 28 by omega) (daysInMonth_ge _ _)⟩
    · exact ⟨by dsimp only; omega, Nat.le_refl 1,
        Nat.le_trans (show (1 : Nat) ≤ 28 by omega) (daysInMonth_ge _ _)⟩

theorem addDays_WF (d : CalDate) (h : WF d) (n : Nat) : WF (addDays d n) := by
  induction n with
  | zero => exact h
  | succ k ih => exact nextDay_WF _ ih

theorem toDays_addDays (d : CalDate) (h : WF d) (n : Nat) :
    toDays (addDays d n) = toDays d + n := by
  induction n with
  | zero => rfl
  | succ k ih =>
    have hw := addDays_WF d h k
    show toDays (nextDay (addDays d k)) = _
    rw [toDays_nextDay _ hw, ih]
    omega

theorem addDays_same_month (y m d n : Nat) (hm : m < 12) (hd : 1 ≤ d)
    (h : d + n ≤ daysInMonth y m) : addDays ⟨y, m, d⟩ n = ⟨y, m, d + n⟩ := by
  induction n with
  | zero => rfl
  | succ k ih =>
    show nextDay (addDays ⟨y, m, d⟩ k) = _
    rw [ih (by omega)]
    unfold nextDay
    split
    · rfl
    · next h1 =>
      exfalso
      dsimp only at h1
      omega

theorem firstOfMonth_WF (y m : Nat) : WF ⟨y, m % 12, 1⟩ :=
  ⟨Nat.mod_lt _ (by omega), Nat.le_refl 1,
    Nat.le_trans (show (1 : Nat) ≤ 28 by omega) (daysInMonth_ge _ _)⟩

theorem mkDateJS_WF (y m d : Nat) : WF (mkDateJS y m d) :=
  addDays_WF _ (firstOfMonth_WF _ _) _

theorem toDays_mkDateJS (y m d : Nat) :
    toDays (mkDateJS y m d) = monthStartDays y m + (d - 1) := by
  unfold mkDateJS monthStartDays
  rw [toDays_addDays _ (firstOfMonth_WF (y + m / 12) m)]
  unfold toDays
  dsimp only
  omega

theorem monthStartDays_succ (y m : Nat) :
    monthStartDays y (m + 1) =
      monthStartDays y m + daysInMonth (y + m / 12) (m % 12) := by
  unfold monthStartDays
  rcases Nat.lt_or_ge (m % 12) 11 with h | h
  · have h1 : (m + 1) / 12 = m / 12 := by omega
    have h2 : (m + 1) % 12 = m % 12 + 1 := by omega
    rw [h1, h2]
    have hstep : daysBeforeMonth (y + m / 12) (m % 12 + 1) =
        daysBeforeMonth (y + m / 12) (m % 12) + daysInMonth (y + m / 12) (m % 12) := rfl
    omega
  · have h3 : m % 12 = 11 := by omega
    have h1 : (m + 1) / 12 = m / 12 + 1 := by omega
    have h2 : (m + 1) % 12 = 0 := by omega
    rw [h1, h2, h3]
    have hsum : daysBeforeMonth (y + m / 12) 12 =
        daysBeforeMonth (y + m / 12) 11 + daysInMonth (y + m / 12) 11 := rfl
    have hs := daysBeforeYear_succ (y + m / 12)
    have h12 := daysBeforeMonth_twelve (y + m / 12)
    have hy : y + (m / 12 + 1) = y + m / 12 + 1 := by omega
    rw [hy]
    have h0 : daysBeforeMonth (y + m / 12 + 1) 0 = 0 := rfl
    omega

theorem monthStartDays_lt_of_lt (y : Nat) {m1 m2 : Nat} (h : m1 < m2) :
    monthStartDays y m1 < monthStartDays y m2 := by
  induction m2 with
  | zero => omega
  | succ k ih =>
    rcases Nat.lt_or_ge m1 k with h1 | h1
    · have := ih h1
      have h2 := daysInMonth_ge (y + k / 12) (k % 12)
      have h3 := monthStartDays_succ y k
      omega
    · have hm : m1 = k := by omega
      subst hm
      have h2 := daysInMonth_ge (y + m1 / 12) (m1 % 12)
      have h3 := monthStartDays_succ y m1
      omega

theorem monthStartDays_of_lt (y m : Nat) (hm : m < 12) :
    monthStartDays y m = daysBeforeYear y + daysBeforeMonth y m := by
  unfold monthStartDays
  rw [Nat.div_eq_of_lt hm, Nat.mod_eq_of_lt hm, Nat.add_zero]

theorem toDays_eq_monthStart (d : CalDate) (hm : d.month < 12) :
    toDays d = monthStartDays d.year d.month + (d.day - 1) := by
  rw [monthStartDays_of_lt _ _ hm]
  rfl

theorem mkDateJS_of_le (y m d : Nat) (hm : m < 12) (hd1 : 1 ≤ d)
    (hd2 : d ≤ daysInMonth y m) : mkDateJS y m d = ⟨y, m, d⟩ := by
  unfold mkDateJS
  rw [Nat.div_eq_of_lt hm, Nat.mod_eq_of_lt hm]
  simp only [Nat.add_zero]
  rw [addDays_same_month y m 1 (d - 1) hm (Nat.le_refl 1) (by omega)]
  have h2 : 1 + (d - 1) = d := by omega
  rw [h2]

theorem setDateJS_15 (c : CalDate) (h : WF c) :
    setDateJS c 15 = ⟨c.year, c.month, 15⟩ :=
  mkDateJS_of_le _ _ _ h.1 (by omega)
    (Nat.le_trans (by omega) (daysInMonth_ge _ _))

theorem setDateJS_day_succ (c : CalDate) (h : WF c) :
    setDateJS c (c.day + 1) = nextDay c := by
  obtain ⟨hm, hd1, hd2⟩ := h
  unfold setDateJS mkDateJS
  rw [Nat.div_eq_of_lt hm, Nat.mod_eq_of_lt hm]
  simp only [Nat.add_zero]
  have h1 : c.day + 1 - 1 = (c.day - 1) + 1 := by omega
  rw [h1]
  show nextDay (addDays ⟨c.year, c.month, 1⟩ (c.day - 1)) = _
  rw [addDays_same_month _ _ _ _ hm (Nat.le_refl 1) (by omega)]
  have h2 : 1 + (c.day - 1) = c.day := by omega
  rw [h2]

theorem fifteenth_WF (y m : Nat) (hm : m < 12) : WF (⟨y, m, 15⟩ : CalDate) :=
  ⟨hm, show (1 : Nat) ≤ 15 by omega,
    Nat.le_trans (show (15 : Nat) ≤ 28 by omega) (daysInMonth_ge y m)⟩

theorem lastDayOfMonth_WF (y m : Nat) (hm : m < 12) : WF (lastDayOfMonth y m) :=
  ⟨hm, Nat.le_trans (by omega) (daysInMonth_ge y m), Nat.le_refl _⟩

theorem mkDateJS_next15 (y m : Nat) (hm : m < 12) :
    mkDateJS y (m + 1) 15 =
      if m < 11 then (⟨y, m + 1, 15⟩ : CalDate) else ⟨y + 1, 0, 15⟩ := by
  rcases Nat.lt_or_ge m 11 with h | h
  · rw [if_pos h]
    exact mkDateJS_of_le y (m + 1) 15 (by omega) (by omega)
      (Nat.le_trans (by omega) (daysInMonth_ge _ _))
  · have hm11 : m = 11 := by omega
    subst hm11
    rw [if_neg (by omega)]
    show addDays ⟨y + 1, 0, 1⟩ 14 = _
    rw [addDays_same_month (y + 1) 0 1 14 (by omega) (Nat.le_refl 1)
      (Nat.le_trans (by omega) (daysInMonth_ge _ _))]

theorem toDays_set15_lt_iff (c : CalDate) (h1 : 1 ≤ c.day) :
    (toDays ⟨c.year, c.month, 15⟩ < toDays c) ↔ 15 < c.day := by
  unfold toDays
  dsimp only
  omega

theorem toDays_lt_next15 (c : CalDate) (h : WF c) :
    toDays c < toDays (mkDateJS c.year (c.month + 1) 15) := by
  obtain ⟨hm, hd1, hd2⟩ := h
  rw [toDays_mkDateJS, toDays_eq_monthStart c hm]
  have hsucc := monthStartDays_succ c.year c.month
  rw [Nat.div_eq_of_lt hm, Nat.mod_eq_of_lt hm] at hsucc
  simp only [Nat.add_zero] at hsucc
  have h31 := daysInMonth_le c.year c.month
  omega

theorem monthDayZero_succ (y m : Nat) (hm : m < 12) :
    monthDayZero y (m + 1) = lastDayOfMonth y m := by
  unfold monthDayZero lastDayOfMonth
  rw [if_neg (by omega)]
  have h1 : m + 1 - 1 = m := by omega
  rw [h1, Nat.div_eq_of_lt hm, Nat.mod_eq_of_lt hm]
  simp only [Nat.add_zero]

theorem monthDayZero_year_succ (y : Nat) :
    monthDayZero (y + 1) 0 = lastDayOfMonth y 11 := by
  unfold monthDayZero lastDayOfMonth
  rw [if_pos rfl]
  have h31 : daysInMonth y 11 = 31 := rfl
  rw [h31]
  simp only [Nat.add_sub_cancel]

/-- Characterization of the monthly payday rule: from a well-formed cursor
date, the computed payday is the 15th of the cursor month when the cursor
day is at most 15, and otherwise the LAST day of the cursor month (the
month-overflow clamp of the source fires on every cursor past the 15th). -/
theorem getNextPayday_monthly (c : CalDate) (h : WF c) :
    getNextPayday c .monthly =
      if c.day ≤ 15 then ⟨c.year, c.month, 15⟩
      else lastDayOfMonth c.year c.month := by
  obtain ⟨hm, hd1, hd2⟩ := h
  unfold getNextPayday
  dsimp only
  rw [setDateJS_15 c ⟨hm, hd1, hd2⟩]
  rcases le_or_lt c.day 15 with hle | hgt
  · have hc1 : ¬ (toDays ⟨c.year, c.month, 15⟩ < toDays c) := by
      rw [toDays_set15_lt_iff c hd1]
      omega
    rw [if_neg hc1]
    rw [if_neg (show ¬ ((⟨c.year, c.month, 15⟩ : CalDate).day < c.day ∧
        (⟨c.year, c.month, 15⟩ : CalDate).month = c.month) by
      rintro ⟨hx, _⟩
      dsimp only at hx
      omega)]
    rw [if_neg hc1]
    rw [if_neg (show ¬ ((⟨c.year, c.month, 15⟩ : CalDate).month ≠
        (c.month + 0) % 12) by
      dsimp only
      omega)]
    rw [if_pos hle]
  · have hc1 : toDays ⟨c.year, c.month, 15⟩ < toDays c := by
      rw [toDays_set15_lt_iff c hd1]
      omega
    rw [if_pos hc1]
    have hsm : setMonthJS (⟨c.year, c.month, 15⟩ : CalDate)
        ((⟨c.year, c.month, 15⟩ : CalDate).month + 1) =
        mkDateJS c.year (c.month + 1) 15 := rfl
    rw [hsm, mkDateJS_next15 c.year c.month hm]
    rcases Nat.lt_or_ge c.month 11 with h11 | h11
    · rw [if_pos h11]
      rw [setDateJS_15 ⟨c.year, c.month + 1, 15⟩ (fifteenth_WF _ _ (by omega))]
      dsimp only
      rw [if_neg (show ¬ ((15 : Nat) < c.day ∧ c.month + 1 = c.month) by
        rintro ⟨_, hx⟩
        omega)]
      have hgt2 : ¬ (toDays (⟨c.year, c.month + 1, 15⟩ : CalDate) < toDays c) := by
        have := toDays_lt_next15 c ⟨hm, hd1, hd2⟩
        rw [mkDateJS_next15 c.year c.month hm, if_pos h11] at this
        omega
      rw [if_neg hgt2]
      rw [if_pos (show (c.month + 1 ≠ (c.month + 0) % 12) by omega)]
      rw [monthDayZero_succ c.year c.month hm]
      rw [if_neg (show ¬ (c.day ≤ 15) by omega)]
    · have hm11 : c.month = 11 := by omega
      rw [if_neg (show ¬ (c.month < 11) by omega)]
      rw [setDateJS_15 ⟨c.year + 1, 0, 15⟩ (fifteenth_WF _ _ (by omega))]
      dsimp only
      rw [if_neg (show ¬ ((15 : Nat) < c.day ∧ (0 : Nat) = c.month) by
        rintro ⟨_, hx⟩
        omega)]
      have hgt2 : ¬ (toDays (⟨c.year + 1, 0, 15⟩ : CalDate) < toDays c) := by
        have := toDays_lt_next15 c ⟨hm, hd1, hd2⟩
        rw [mkDateJS_next15 c.year c.month hm,
          if_neg (show ¬ (c.month < 11) by omega)] at this
        omega
      rw [if_neg hgt2]
      rw [if_pos (show ((0 : Nat) ≠ (c.month + 0) % 12) by omega)]
      rw [monthDayZero_year_succ c.year]
      rw [if_neg (show ¬ (c.day ≤ 15) by omega), hm11]

theorem getNextPayday_monthly_WF (c : CalDate) (h : WF c) :
    WF (getNextPayday c .monthly) := by
  rw [getNextPayday_monthly c h]
  split
  · exact fifteenth_WF _ _ h.1
  · exact lastDayOfMonth_WF _ _ h.1

theorem getNextPayday_monthly_day (c : CalDate) (h : WF c) :
    (getNextPayday c .monthly).day = 15 ∨
    (getNextPayday c .monthly).day =
      daysInMonth (getNextPayday c .monthly).year (getNextPayday c .monthly).month := by
  rw [getNextPayday_monthly c h]
  split
  · left
    rfl
  · right
    rfl

/-! Salary loop lemmas. -/

theorem salaryLoop_monthly_events (per : ℚ) (limitKey now : Nat) :
    ∀ (fuel : Nat) (tempDate : CalDate) (count : Nat) (tx : Nat → ℚ)
      (evs : List IncomeItem),
      WF tempDate →
      (∀ ev ∈ evs, ev.amount = per ∧
        (ev.dueDate.day = 15 ∨
          ev.dueDate.day = daysInMonth ev.dueDate.year ev.dueDate.month) ∧
        toDays ev.dueDate ≤ limitKey) →
      ∀ ev ∈ (salaryLoop .monthly per limitKey now fuel tempDate count tx evs).2,
        ev.amount = per ∧
        (ev.dueDate.day = 15 ∨
          ev.dueDate.day = daysInMonth ev.dueDate.year ev.dueDate.month) ∧
        toDays ev.dueDate ≤ limitKey := by
  intro fuel
  induction fuel with
  | zero =>
    intro tempDate count tx evs hw hinv
    exact hinv
  | succ f ih =>
    intro tempDate count tx evs hw hinv
    unfold salaryLoop
    dsimp only
    split
    · split
      · next hpay =>
        apply ih
        · have hwp := getNextPayday_monthly_WF tempDate hw
          rw [setDateJS_day_succ _ hwp]
          exact nextDay_WF _ hwp
        · intro ev hev
          rcases List.mem_append.mp hev with h1 | h2
          · exact hinv ev h1
          · rw [List.mem_singleton.mp h2]
            exact ⟨rfl, getNextPayday_monthly_day tempDate hw, hpay⟩
      · exact hinv
    · exact hinv

theorem salaryLoop_length (freq : SalaryFrequency) (per : ℚ) (limitKey now : Nat) :
    ∀ (fuel : Nat) (tempDate : CalDate) (count : Nat) (tx : Nat → ℚ)
      (evs : List IncomeItem),
      (salaryLoop freq per limitKey now fuel tempDate count tx evs).2.length ≤
        evs.length + fuel := by
  intro fuel
  induction fuel with
  | zero =>
    intro tempDate count tx evs
    exact Nat.le_add_right _ _
  | succ f ih =>
    intro tempDate count tx evs
    unfold salaryLoop
    dsimp only
    split
    · split
      · refine Nat.le_trans (ih _ _ _ _) ?_
        simp only [List.length_append, List.length_singleton]
        omega
      · exact Nat.le_add_right _ _
    · exact Nat.le_add_right _ _

theorem salaryLoop_dates (freq : SalaryFrequency) (per : ℚ) (limitKey now : Nat) :
    ∀ (fuel : Nat) (tempDate : CalDate) (count : Nat) (tx : Nat → ℚ)
      (evs : List IncomeItem),
      (∀ ev ∈ evs, toDays ev.dueDate ≤ limitKey) →
      ∀ ev ∈ (salaryLoop freq per limitKey now fuel tempDate count tx evs).2,
        toDays ev.dueDate ≤ limitKey := by
  intro fuel
  induction fuel with
  | zero =>
    intro tempDate count tx evs hinv
    exact hinv
  | succ f ih =>
    intro tempDate count tx evs hinv
    unfold salaryLoop
    dsimp only
    split
    · split
      · next hpay =>
        apply ih
        intro ev hev
        rcases List.mem_append.mp hev with h1 | h2
        · exact hinv ev h1
        · rw [List.mem_singleton.mp h2]
          exact hpay
      · exact hinv
    · exact hinv

/-! Daily walk lemmas. -/

theorem dailyWalkGo_one (tk : Nat) (tx : Nat → ℚ) (s i : Nat) (bal : ℚ)
    (sf : Option Nat) :
    (dailyWalkGo tk tx (s + 1) i bal sf).1 =
      (⟨tk + i, bal + tx (tk + i)⟩ : ProjPoint) ::
        (dailyWalkGo tk tx s (i + 1) (bal + tx (tk + i))
          (if bal + tx (tk + i) < 0 ∧ sf = none then some (tk + i) else sf)).1 := rfl

theorem dailyWalkGo_two (tk : Nat) (tx : Nat → ℚ) (s i : Nat) (bal : ℚ)
    (sf : Option Nat) :
    (dailyWalkGo tk tx (s + 1) i bal sf).2 =
      (dailyWalkGo tk tx s (i + 1) (bal + tx (tk + i))
        (if bal + tx (tk + i) < 0 ∧ sf = none then some (tk + i) else sf)).2 := rfl

theorem dailyWalkGo_dates (tk : Nat) (tx : Nat → ℚ) :
    ∀ (s i : Nat) (bal : ℚ) (sf : Option Nat),
      (dailyWalkGo tk tx s i bal sf).1.map ProjPoint.date =
        (List.range s).map (fun j => tk + (i + j)) := by
  intro s
  induction s with
  | zero =>
    intro i bal sf
    rfl
  | succ s ih =>
    intro i bal sf
    rw [dailyWalkGo_one, List.map_cons, ih]
    rw [List.range_succ_eq_map, List.map_cons, List.map_map]
    congr 1
    refine List.map_congr_left ?_
    intro a _
    show tk + (i + 1 + a) = tk + (i + (a + 1))
    omega

theorem dailyWalkGo_len (tk : Nat) (tx : Nat → ℚ) :
    ∀ (s i : Nat) (bal : ℚ) (sf : Option Nat),
      (dailyWalkGo tk tx s i bal sf).1.length = s := by
  intro s
  induction s with
  | zero =>
    intro i bal sf
    rfl
  | succ s ih =>
    intro i bal sf
    rw [dailyWalkGo_one, List.length_cons, ih]

theorem dailyWalkGo_sf_some (tk : Nat) (tx : Nat → ℚ) :
    ∀ (s i : Nat) (bal : ℚ) (d : Nat),
      (dailyWalkGo tk tx s i bal (some d)).2 = some d := by
  intro s
  induction s with
  | zero =>
    intro i bal d
    rfl
  | succ s ih =>
    intro i bal d
    rw [dailyWalkGo_two]
    rw [if_neg (by rintro ⟨_, hx⟩; exact Option.noConfusion hx)]
    exact ih _ _ _

theorem dailyWalkGo_sf_none (tk : Nat) (tx : Nat → ℚ) :
    ∀ (s i : Nat) (bal : ℚ),
      ((dailyWalkGo tk tx s i bal none).2 = none ↔
        ∀ j < s, 0 ≤ bal + (Finset.range (j + 1)).sum
          (fun t => tx (tk + (i + t)))) := by
  intro s
  induction s with
  | zero =>
    intro i bal
    constructor
    · intro _ j hj
      omega
    · intro _
      rfl
  | succ s ih =>
    intro i bal
    rw [dailyWalkGo_two]
    by_cases hb : bal + tx (tk + i) < 0
    · rw [if_pos ⟨hb, rfl⟩, dailyWalkGo_sf_some]
      constructor
      · intro hx
        exact absurd hx (by simp)
      · intro hall
        exfalso
        have h0 := hall 0 (by omega)
        rw [Finset.sum_range_one] at h0
        have hi : i + 0 = i := by omega
        rw [hi] at h0
        exact absurd hb (not_lt.mpr h0)
    · rw [if_neg (by rintro ⟨h1, _⟩; exact hb h1)]
      rw [ih (i + 1) (bal + tx (tk + i))]
      have hshift : ∀ j : Nat,
          bal + (Finset.range (j + 1 + 1)).sum (fun t => tx (tk + (i + t))) =
          (bal + tx (tk + i)) +
            (Finset.range (j + 1)).sum (fun t => tx (tk + (i + 1 + t))) := by
        intro j
        rw [Finset.sum_range_succ' (fun t => tx (tk + (i + t))) (j + 1)]
        have he : ∀ t : Nat, tk + (i + (t + 1)) = tk + (i + 1 + t) := by
          intro t
          omega
        simp only [he, Nat.add_zero]
        ring
      constructor
      · intro hall j hj
        rcases Nat.eq_zero_or_pos j with hj0 | hjpos
        · subst hj0
          rw [Finset.sum_range_one]
          have hi : i + 0 = i := by omega
          rw [hi]
          exact not_lt.mp hb
        · obtain ⟨j1, rfl⟩ : ∃ j1, j = j1 + 1 := ⟨j - 1, by omega⟩
          rw [hshift j1]
          exact hall j1 (by omega)
      · intro hall j hj
        have := hall (j + 1) (by omega)
        rw [hshift j] at this
        exact this

theorem dailyWalkGo_sf_first (tk : Nat) (tx : Nat → ℚ) :
    ∀ (s i : Nat) (bal : ℚ) (j0 : Nat),
      j0 < s →
      bal + (Finset.range (j0 + 1)).sum (fun t => tx (tk + (i + t))) < 0 →
      (∀ j < j0, 0 ≤ bal + (Finset.range (j + 1)).sum
        (fun t => tx (tk + (i + t)))) →
      (dailyWalkGo tk tx s i bal none).2 = some (tk + (i + j0)) := by
  intro s
  induction s with
  | zero =>
    intro i bal j0 hj0
    omega
  | succ s ih =>
    intro i bal j0 hj0 hneg hpos
    rw [dailyWalkGo_two]
    by_cases hb : bal + tx (tk + i) < 0
    · have hj00 : j0 = 0 := by
        by_contra hne
        have h0 := hpos 0 (by omega)
        rw [Finset.sum_range_one] at h0
        have hi : i + 0 = i := by omega
        rw [hi] at h0
        exact absurd hb (not_lt.mpr h0)
      subst hj00
      rw [if_pos ⟨hb, rfl⟩, dailyWalkGo_sf_some]
      have hi : i + 0 = i := by omega
      rw [hi]
    · rw [if_neg (by rintro ⟨h1, _⟩; exact hb h1)]
      have hshift : ∀ j : Nat,
          bal + (Finset.range (j + 1 + 1)).sum (fun t => tx (tk + (i + t))) =
          (bal + tx (tk + i)) +
            (Finset.range (j + 1)).sum (fun t => tx (tk + (i + 1 + t))) := by
        intro j
        rw [Finset.sum_range_succ' (fun t => tx (tk + (i + t))) (j + 1)]
        have he : ∀ t : Nat, tk + (i + (t + 1)) = tk + (i + 1 + t) := by
          intro t
          omega
        simp only [he, Nat.add_zero]
        ring
      have hj0pos : j0 ≠ 0 := by
        intro hj00
        subst hj00
        rw [Finset.sum_range_one] at hneg
        have hi : i + 0 = i := by omega
        rw [hi] at hneg
        exact hb hneg
      obtain ⟨j1, rfl⟩ : ∃ j1, j0 = j1 + 1 := ⟨j0 - 1, by omega⟩
      have hres := ih (i + 1) (bal + tx (tk + i)) j1 (by omega)
        (by rw [← hshift j1]; exact hneg)
        (by
          intro j hj
          rw [← hshift j]
          exact hpos (j + 1) (by omega))
      rw [hres]
      have hi : i + 1 + j1 = i + (j1 + 1) := by omega
      rw [hi]

theorem dailyWalkGo_zero_tx (tk : Nat) :
    ∀ (s i : Nat) (bal : ℚ), 0 ≤ bal →
      (dailyWalkGo tk (fun _ => 0) s i bal none).1.map ProjPoint.balance =
        List.replicate s bal ∧
      (dailyWalkGo tk (fun _ => 0) s i bal none).2 = none := by
  intro s
  induction s with
  | zero =>
    intro i bal hbal
    exact ⟨rfl, rfl⟩
  | succ s ih =>
    intro i bal hbal
    have hz : bal + (fun _ : Nat => (0 : ℚ)) (tk + i) = bal := by
      simp
    rw [dailyWalkGo_one, dailyWalkGo_two, List.map_cons, hz]
    rw [if_neg (by rintro ⟨h1, _⟩; exact absurd h1 (not_lt.mpr hbal))]
    obtain ⟨h1, h2⟩ := ih (i + 1) bal hbal
    rw [h1, h2, List.replicate_succ]
    exact ⟨rfl, rfl⟩

/-! Loan walk lemmas. -/

theorem advanceLoanDate_WF (f : LoanFrequency) (p : CalDate) :
    WF (advanceLoanDate f p) := by
  cases f <;> exact mkDateJS_WF _ _ _

theorem toDays_advance_monthly (p : CalDate) (h : WF p) :
    toDays (setMonthJS p (p.month + 1)) =
      toDays p + daysInMonth p.year p.month := by
  obtain ⟨hm, hd1, hd2⟩ := h
  unfold setMonthJS
  rw [toDays_mkDateJS, toDays_eq_monthStart p hm]
  have hs := monthStartDays_succ p.year p.month
  rw [Nat.div_eq_of_lt hm, Nat.mod_eq_of_lt hm] at hs
  simp only [Nat.add_zero] at hs
  omega

theorem loanGo_cons (tk : Nat) (a : ℚ) (f : LoanFrequency) (i : Nat)
    (is : List Nat) (tx : Nat → ℚ) (p : CalDate) :
    loanGo tk a f (i :: is) tx p =
      if tk + i = toDays p then
        loanGo tk a f is
          (fun k => if k = tk + i then tx k - a else tx k) (advanceLoanDate f p)
      else loanGo tk a f is tx p := rfl

theorem loanGo_no_match (tk : Nat) (a : ℚ) (f : LoanFrequency) :
    ∀ (is : List Nat) (tx : Nat → ℚ) (p : CalDate),
      (∀ i ∈ is, tk + i ≠ toDays p) →
      loanGo tk a f is tx p = (tx, p) := by
  intro is
  induction is with
  | nil =>
    intro tx p _
    rfl
  | cons i is ih =>
    intro tx p hno
    rw [loanGo_cons, if_neg (hno i (List.mem_cons_self i is))]
    exact ih tx p (fun j hj => hno j (List.mem_cons_of_mem _ hj))

theorem loanGo_append (tk : Nat) (a : ℚ) (f : LoanFrequency) :
    ∀ (l1 l2 : List Nat) (tx : Nat → ℚ) (p : CalDate),
      loanGo tk a f (l1 ++ l2) tx p =
        loanGo tk a f l2 (loanGo tk a f l1 tx p).1 (loanGo tk a f l1 tx p).2 := by
  intro l1
  induction l1 with
  | nil =>
    intro l2 tx p
    rfl
  | cons i l1 ih =>
    intro l2 tx p
    rw [List.cons_append, loanGo_cons, loanGo_cons]
    split
    · exact ih _ _ _
    · exact ih _ _ _

/-! Horizon scan and aggregation-map fold lemmas. -/

theorem income_fold_max (tk : Nat) :
    ∀ (l : List IncomeItem) (acc : CalDate),
      toDays (l.foldl (fun acc inc =>
        if incomeEligible tk inc && Nat.blt (toDays acc) (toDays inc.dueDate)
        then inc.dueDate else acc) acc) =
      ((l.filter (incomeEligible tk)).map (fun i => toDays i.dueDate)).foldl
        max (toDays acc) := by
  intro l
  induction l with
  | nil =>
    intro acc
    rfl
  | cons x l ih =>
    intro acc
    rw [List.foldl_cons, List.filter_cons]
    cases hx : incomeEligible tk x
    · simp only [hx, Bool.false_and, Bool.false_eq_true, if_false]
      exact ih acc
    · simp only [hx, Bool.true_and, if_true, List.map_cons, List.foldl_cons]
      cases hb : Nat.blt (toDays acc) (toDays x.dueDate)
      · have hnb : ¬ (toDays acc < toDays x.dueDate) := by
          rw [← Nat.blt_eq]
          simp [hb]
        rw [if_neg (by simp [hb]), ih acc]
        have hmax : max (toDays acc) (toDays x.dueDate) = toDays acc :=
          max_eq_left (by omega)
        rw [hmax]
      · have hlt : toDays acc < toDays x.dueDate := by
          rw [← Nat.blt_eq]
          exact hb
        rw [if_pos (by simp [hb]), ih x.dueDate]
        have hmax : max (toDays acc) (toDays x.dueDate) = toDays x.dueDate :=
          max_eq_right (le_of_lt hlt)
        rw [hmax]

theorem expense_fold_max (tk : Nat) :
    ∀ (l : List ExpenseItem) (acc : CalDate),
      toDays (l.foldl (fun acc exp =>
        if expenseEligible tk exp && Nat.blt (toDays acc) (toDays exp.date)
        then exp.date else acc) acc) =
      ((l.filter (expenseEligible tk)).map (fun e => toDays e.date)).foldl
        max (toDays acc) := by
  intro l
  induction l with
  | nil =>
    intro acc
    rfl
  | cons x l ih =>
    intro acc
    rw [List.foldl_cons, List.filter_cons]
    cases hx : expenseEligible tk x
    · simp only [hx, Bool.false_and, Bool.false_eq_true, if_false]
      exact ih acc
    · simp only [hx, Bool.true_and, if_true, List.map_cons, List.foldl_cons]
      cases hb : Nat.blt (toDays acc) (toDays x.date)
      · have hnb : ¬ (toDays acc < toDays x.date) := by
          rw [← Nat.blt_eq]
          simp [hb]
        rw [if_neg (by simp [hb]), ih acc]
        have hmax : max (toDays acc) (toDays x.date) = toDays acc :=
          max_eq_left (by omega)
        rw [hmax]
      · have hlt : toDays acc < toDays x.date := by
          rw [← Nat.blt_eq]
          exact hb
        rw [if_pos (by simp [hb]), ih x.date]
        have hmax : max (toDays acc) (toDays x.date) = toDays x.date :=
          max_eq_right (le_of_lt hlt)
        rw [hmax]

theorem effectiveProjectionDays_eq_spec (today : CalDate)
    (incomes : List IncomeItem) (expenses : List ExpenseItem) :
    effectiveProjectionDays today incomes expenses =
      max (specMaxKey today incomes expenses - toDays today) 30 := by
  unfold effectiveProjectionDays maxRelevantDate specMaxKey
  dsimp only
  rw [expense_fold_max, income_fold_max, List.foldl_append]

theorem foldl_max_le_init : ∀ (l : List Nat) (b : Nat), b ≤ l.foldl max b := by
  intro l
  induction l with
  | nil =>
    intro b
    exact Nat.le_refl b
  | cons x l ih =>
    intro b
    rw [List.foldl_cons]
    exact Nat.le_trans (Nat.le_max_left b x) (ih (max b x))

theorem specMaxKey_ge (today : CalDate) (incomes : List IncomeItem)
    (expenses : List ExpenseItem) :
    toDays today ≤ specMaxKey today incomes expenses :=
  foldl_max_le_init _ _

/-! Filter invariance: records failing the eligibility filters contribute
nothing to the horizon scan or the aggregation map. -/

theorem income_fold_max_filter (tk : Nat) :
    ∀ (l : List IncomeItem) (acc : CalDate),
      l.foldl (fun acc inc =>
        if incomeEligible tk inc && Nat.blt (toDays acc) (toDays inc.dueDate)
        then inc.dueDate else acc) acc =
      (l.filter (incomeEligible tk)).foldl (fun acc inc =>
        if incomeEligible tk inc && Nat.blt (toDays acc) (toDays inc.dueDate)
        then inc.dueDate else acc) acc := by
  intro l
  induction l with
  | nil =>
    intro acc
    rfl
  | cons x l ih =>
    intro acc
    rw [List.foldl_cons, List.filter_cons]
    cases hx : incomeEligible tk x
    · simp only [hx, Bool.false_and, Bool.false_eq_true, if_false]
      exact ih acc
    · simp only [hx, if_true]
      rw [List.foldl_cons]
      cases hb : Nat.blt (toDays acc) (toDays x.dueDate) <;>
        simp only [hx, hb, Bool.true_and, Bool.false_eq_true, if_false, if_true] <;>
        exact ih _

theorem expense_fold_max_filter (tk : Nat) :
    ∀ (l : List ExpenseItem) (acc : CalDate),
      l.foldl (fun acc exp =>
        if expenseEligible tk exp && Nat.blt (toDays acc) (toDays exp.date)
        then exp.date else acc) acc =
      (l.filter (expenseEligible tk)).foldl (fun acc exp =>
        if expenseEligible tk exp && Nat.blt (toDays acc) (toDays exp.date)
        then exp.date else acc) acc := by
  intro l
  induction l with
  | nil =>
    intro acc
    rfl
  | cons x l ih =>
    intro acc
    rw [List.foldl_cons, List.filter_cons]
    cases hx : expenseEligible tk x
    · simp only [hx, Bool.false_and, Bool.false_eq_true, if_false]
      exact ih acc
    · simp only [hx, if_true]
      rw [List.foldl_cons]
      cases hb : Nat.blt (toDays acc) (toDays x.date) <;>
        simp only [hx, hb, Bool.true_and, Bool.false_eq_true, if_false, if_true] <;>
        exact ih _

theorem income_fold_tx_filter (tk : Nat) :
    ∀ (l : List IncomeItem) (init : Nat → ℚ),
      l.foldl (fun tx inc =>
        if incomeEligible tk inc then
          fun k => if k = toDays inc.dueDate then tx k + inc.amount else tx k
        else tx) init =
      (l.filter (incomeEligible tk)).foldl (fun tx inc =>
        if incomeEligible tk inc then
          fun k => if k = toDays inc.dueDate then tx k + inc.amount else tx k
        else tx) init := by
  intro l
  induction l with
  | nil =>
    intro init
    rfl
  | cons x l ih =>
    intro init
    rw [List.foldl_cons, List.filter_cons]
    cases hx : incomeEligible tk x
    · simp only [hx, Bool.false_eq_true, if_false]
      exact ih init
    · simp only [hx, if_true]
      rw [List.foldl_cons]
      simp only [hx, if_true]
      exact ih _

theorem expense_fold_tx_filter (tk : Nat) :
    ∀ (l : List ExpenseItem) (init : Nat → ℚ),
      l.foldl (fun tx exp =>
        if expenseEligible tk exp then
          fun k => if k = toDays exp.date then tx k - exp.amount else tx k
        else tx) init =
      (l.filter (expenseEligible tk)).foldl (fun tx exp =>
        if expenseEligible tk exp then
          fun k => if k = toDays exp.date then tx k - exp.amount else tx k
        else tx) init := by
  intro l
  induction l with
  | nil =>
    intro init
    rfl
  | cons x l ih =>
    intro init
    rw [List.foldl_cons, List.filter_cons]
    cases hx : expenseEligible tk x
    · simp only [hx, Bool.false_eq_true, if_false]
      exact ih init
    · simp only [hx, if_true]
      rw [List.foldl_cons]
      simp only [hx, if_true]
      exact ih _

theorem filter_self_idem {α : Type} (p : α → Bool) (l : List α) :
    (l.filter p).filter p = l.filter p := by
  rw [List.filter_filter]
  apply List.filter_congr
  intro a _
  cases p a <;> rfl

theorem maxRelevantDate_filter (today : CalDate) (incomes : List IncomeItem)
    (expenses : List ExpenseItem) :
    maxRelevantDate today incomes expenses =
      maxRelevantDate today (incomes.filter (incomeEligible (toDays today)))
        (expenses.filter (expenseEligible (toDays today))) := by
  unfold maxRelevantDate
  dsimp only
  rw [income_fold_max_filter, expense_fold_max_filter]

theorem effectiveProjectionDays_filter (today : CalDate)
    (incomes : List IncomeItem) (expenses : List ExpenseItem) :
    effectiveProjectionDays today incomes expenses =
      effectiveProjectionDays today
        (incomes.filter (incomeEligible (toDays today)))
        (expenses.filter (expenseEligible (toDays today))) := by
  unfold effectiveProjectionDays
  rw [← maxRelevantDate_filter]

theorem baseTx_filter (today : CalDate) (incomes : List IncomeItem)
    (expenses : List ExpenseItem) :
    baseTx (toDays today) incomes expenses =
      baseTx (toDays today) (incomes.filter (incomeEligible (toDays today)))
        (expenses.filter (expenseEligible (toDays today))) := by
  unfold baseTx
  dsimp only
  rw [income_fold_tx_filter, expense_fold_tx_filter]

theorem generateMockForecast_congr (today : CalDate) (now : Nat) (cb : ℚ)
    (i1 i2 : List IncomeItem) (e1 e2 : List ExpenseItem)
    (p : Option UserProfile)
    (h1 : effectiveProjectionDays today i1 e1 = effectiveProjectionDays today i2 e2)
    (h2 : baseTx (toDays today) i1 e1 = baseTx (toDays today) i2 e2) :
    generateMockForecast today now cb i1 e1 p =
      generateMockForecast today now cb i2 e2 p := by
  unfold generateMockForecast
  dsimp only
  rw [h1, h2]

/-! Engine projection lemmas (definitional unfoldings of the result). -/

theorem generateMockForecast_series (today : CalDate) (now : Nat) (cb : ℚ)
    (incs : List IncomeItem) (exps : List ExpenseItem)
    (prof : Option UserProfile) :
    (generateMockForecast today now cb incs exps prof).forecastData =
      (⟨toDays today, cb⟩ : ProjPoint) ::
        (dailyWalkGo (toDays today) (finalTx today now incs exps prof)
          (effectiveProjectionDays today incs exps + 1) 0 cb none).1 := rfl

theorem generateMockForecast_sf (today : CalDate) (now : Nat) (cb : ℚ)
    (incs : List IncomeItem) (exps : List ExpenseItem)
    (prof : Option UserProfile) :
    (generateMockForecast today now cb incs exps prof).potentialShortfallDate =
      (dailyWalkGo (toDays today) (finalTx today now incs exps prof)
        (effectiveProjectionDays today incs exps + 1) 0 cb none).2 := rfl

theorem generateMockForecast_events (today : CalDate) (now : Nat) (cb : ℚ)
    (incs : List IncomeItem) (exps : List ExpenseItem)
    (prof : Option UserProfile) :
    (generateMockForecast today now cb incs exps prof).projectedSalaryPayments =
      (salaryResult today now (effectiveProjectionDays today incs exps)
        (baseTx (toDays today) incs exps) prof).2 := rfl

theorem effectiveProjectionDays_nil (today : CalDate) :
    effectiveProjectionDays today [] [] = 30 := by
  unfold effectiveProjectionDays maxRelevantDate
  simp only [List.foldl_nil]
  omega

/-! Claim theorems. -/

/-- C7: for every input, the first point of the returned series has balance
exactly `currentBalance` and date exactly `today` (midnight-normalized),
with no per-day adjustment applied to it. -/
theorem C7_first_point_is_seed (today : CalDate) (now : Nat) (cb : ℚ)
    (incs : List IncomeItem) (exps : List ExpenseItem)
    (prof : Option UserProfile) :
    (generateMockForecast today now cb incs exps prof).forecastData.head? =
      some ⟨toDays today, cb⟩ := rfl

/-- C1 (amended): for every input, the series has length
`horizonDays + 2`, and its dates are `today` followed by the contiguous
daily sequence `today, today + 1, ..., today + horizonDays`: from index 1
on, dates are contiguous with no gaps and no duplicates, but the date
`today` occurs twice (at index 0, the seed, and at index 1, the day-0
point), so the full date list is not duplicate-free. -/
theorem C1_series_length_and_dates (today : CalDate) (now : Nat) (cb : ℚ)
    (incs : List IncomeItem) (exps : List ExpenseItem)
    (prof : Option UserProfile) :
    (generateMockForecast today now cb incs exps prof).forecastData.length =
      effectiveProjectionDays today incs exps + 2 ∧
    (generateMockForecast today now cb incs exps prof).forecastData.map
        ProjPoint.date =
      toDays today ::
        (List.range (effectiveProjectionDays today incs exps + 1)).map
          (fun i => toDays today + i) := by
  rw [generateMockForecast_series]
  constructor
  · rw [List.length_cons, dailyWalkGo_len]
  · rw [List.map_cons, dailyWalkGo_dates]
    congr 1
    refine List.map_congr_left ?_
    intro a _
    show toDays today + (0 + a) = toDays today + a
    omega

/-- C1 counterexample: on a concrete input the claimed absence of
duplicate dates fails, because the seed point and the day-0 point both
carry the date `today`. -/
theorem C1_counterexample :
    ¬ ((generateMockForecast sampleToday 0 5 [] [] none).forecastData.map
        ProjPoint.date).Nodup := by decide

/-- C8: two invocations of the engine with identical inputs and the same
value of today (and the same creation instant) produce identical outputs:
the same series, the same shortfall date, and the same synthetic salary
events with all their fields. -/
theorem C8_deterministic (today1 today2 : CalDate) (now1 now2 : Nat)
    (cb1 cb2 : ℚ) (i1 i2 : List IncomeItem) (e1 e2 : List ExpenseItem)
    (p1 p2 : Option UserProfile)
    (ht : today1 = today2) (hn : now1 = now2) (hc : cb1 = cb2)
    (hi : i1 = i2) (he : e1 = e2) (hp : p1 = p2) :
    generateMockForecast today1 now1 cb1 i1 e1 p1 =
      generateMockForecast today2 now2 cb2 i2 e2 p2 := by
  subst ht hn hc hi he hp
  rfl

/-- C8 witness at a concrete input. -/
theorem C8_witness :
    generateMockForecast sampleToday 0 5 [] [] none =
      generateMockForecast sampleToday 0 5 [] [] none :=
  C8_deterministic sampleToday sampleToday 0 0 5 5 [] [] [] [] none none
    rfl rfl rfl rfl rfl rfl

/-- C9: the engine terminates with bounded work: at most 100 synthetic
salary events are generated (the iteration cap), every generated payday
lies within `horizonEnd + 1` day, and the daily walk emits exactly
`horizonDays + 2` points. -/
theorem C9_bounded (today : CalDate) (now : Nat) (cb : ℚ)
    (incs : List IncomeItem) (exps : List ExpenseItem)
    (prof : Option UserProfile) :
    (generateMockForecast today now cb incs exps
        prof).projectedSalaryPayments.length ≤ 100 ∧
    (∀ ev ∈ (generateMockForecast today now cb incs exps
        prof).projectedSalaryPayments,
      toDays ev.dueDate ≤
        toDays today + effectiveProjectionDays today incs exps + 1) ∧
    (generateMockForecast today now cb incs exps prof).forecastData.length =
      effectiveProjectionDays today incs exps + 2 := by
  refine ⟨?_, ?_, ?_⟩
  · rw [generateMockForecast_events]
    unfold salaryResult
    cases prof with
    | none => simp
    | some up =>
      dsimp only
      split
      · have h := salaryLoop_length up.salaryFrequency
          ((up.salaryIncome -
            up.deductions.foldl (fun s d => s + d.amount) 0) /
            numPayrollsPerMonth up.salaryFrequency)
          (toDays today + effectiveProjectionDays today incs exps + 1) now
          100 today 0 (baseTx (toDays today) incs exps) []
        simpa using h
      · simp
  · rw [generateMockForecast_events]
    unfold salaryResult
    cases prof with
    | none => intro ev hev; exact absurd hev (List.not_mem_nil ev)
    | some up =>
      dsimp only
      split
      · exact salaryLoop_dates up.salaryFrequency _ _ now 100 today 0 _ []
          (fun ev hev => absurd hev (List.not_mem_nil ev))
      · intro ev hev
        exact absurd hev (List.not_mem_nil ev)
  · rw [generateMockForecast_series, List.length_cons, dailyWalkGo_len]

/-- C3: the horizon length equals `max(daysBetween(today, maxDate), 30)`
where `maxDate` is the maximum over eligible income due dates and eligible
expense dates (equal to today when no such record exists, and never before
today), and records failing the filters contribute nothing: the engine
output is unchanged by pre-filtering the inputs. -/
theorem C3_horizon_and_filters (today : CalDate) (now : Nat) (cb : ℚ)
    (incs : List IncomeItem) (exps : List ExpenseItem)
    (prof : Option UserProfile) :
    effectiveProjectionDays today incs exps =
      max (specMaxKey today incs exps - toDays today) 30 ∧
    toDays today ≤ specMaxKey today incs exps ∧
    generateMockForecast today now cb incs exps prof =
      generateMockForecast today now cb
        (incs.filter (incomeEligible (toDays today)))
        (exps.filter (expenseEligible (toDays today))) prof :=
  ⟨effectiveProjectionDays_eq_spec today incs exps,
   specMaxKey_ge today incs exps,
   generateMockForecast_congr today now cb incs
     (incs.filter (incomeEligible (toDays today))) exps
     (exps.filter (expenseEligible (toDays today))) prof
     (effectiveProjectionDays_filter today incs exps)
     (baseTx_filter today incs exps)⟩

/-- C6 (amended): with no incomes, no expenses, and a profile that is
absent or supplies no salary and no loans, the horizon is 30 days, every
point of the series has balance `currentBalance`, the shortfall date is
null (given a non-negative starting balance) — but the series has exactly
32 points (seed plus 31 walked days), not 31 as claimed. -/
theorem C6_empty_inputs_flat (today : CalDate) (now : Nat) (cb : ℚ)
    (hcb : 0 ≤ cb) (prof : Option UserProfile)
    (hprof : prof = none ∨
      ∃ up, prof = some up ∧ up.salaryIncome = 0 ∧ up.loans = []) :
    effectiveProjectionDays today [] [] = 30 ∧
    (generateMockForecast today now cb [] [] prof).forecastData.length = 32 ∧
    (generateMockForecast today now cb [] [] prof).forecastData.map
        ProjPoint.balance = List.replicate 32 cb ∧
    (generateMockForecast today now cb [] [] prof).potentialShortfallDate =
      none := by
  have htx : finalTx today now [] [] prof = (fun _ => 0) := by
    rcases hprof with h | ⟨up, h, hs, hl⟩
    · subst h
      rfl
    · subst h
      unfold finalTx salaryResult loansTx
      dsimp only
      rw [hs, hl]
      rw [if_neg (lt_irrefl (0 : ℚ))]
      rw [List.foldl_nil]
      rfl
  have hz := dailyWalkGo_zero_tx (toDays today) 31 0 cb hcb
  have heff : effectiveProjectionDays today [] [] + 1 = 31 := by
    rw [effectiveProjectionDays_nil]
  refine ⟨effectiveProjectionDays_nil today, ?_, ?_, ?_⟩
  · rw [generateMockForecast_series, List.length_cons, dailyWalkGo_len, heff]
  · rw [generateMockForecast_series, List.map_cons]
    rw [heff, htx, hz.1]
    rfl
  · rw [generateMockForecast_sf]
    rw [heff, htx, hz.2]

/-- C6 counterexample: on a concrete empty input the series has 32 points,
refuting the claimed count of exactly 31. -/
theorem C6_counterexample :
    ¬ ((generateMockForecast sampleToday 0 5 [] [] none).forecastData.length
        = 31) := by decide

/-- C6 witness at a concrete input. -/
theorem C6_witness :
    effectiveProjectionDays sampleToday [] [] = 30 ∧
    (generateMockForecast sampleToday 0 5 [] [] none).forecastData.length = 32 ∧
    (generateMockForecast sampleToday 0 5 [] [] none).forecastData.map
        ProjPoint.balance = List.replicate 32 5 ∧
    (generateMockForecast sampleToday 0 5 [] [] none).potentialShortfallDate =
      none :=
  C6_empty_inputs_flat sampleToday 0 5 (by norm_num) none (Or.inl rfl)

/-- C2: the returned shortfall date is null exactly when the running
balance of the daily walk never goes strictly negative; and whenever day
`i0` within the horizon is the first day whose running balance is strictly
negative, the shortfall date equals that day (and therefore stays at the
first occurrence even if the balance later recovers). -/
theorem C2_shortfall_first_negative (today : CalDate) (now : Nat) (cb : ℚ)
    (incs : List IncomeItem) (exps : List ExpenseItem)
    (prof : Option UserProfile) :
    ((generateMockForecast today now cb incs exps
        prof).potentialShortfallDate = none ↔
      ∀ i ≤ effectiveProjectionDays today incs exps,
        0 ≤ runningBalance today now cb incs exps prof i) ∧
    (∀ i0 ≤ effectiveProjectionDays today incs exps,
      runningBalance today now cb incs exps prof i0 < 0 →
      (∀ j < i0, 0 ≤ runningBalance today now cb incs exps prof j) →
      (generateMockForecast today now cb incs exps
        prof).potentialShortfallDate = some (toDays today + i0)) := by
  have hsum : ∀ j : Nat,
      cb + (Finset.range (j + 1)).sum
        (fun t => finalTx today now incs exps prof (toDays today + (0 + t))) =
      runningBalance today now cb incs exps prof j := by
    intro j
    unfold runningBalance
    congr 1
    apply Finset.sum_congr rfl
    intro t _
    rw [Nat.zero_add]
  constructor
  · rw [generateMockForecast_sf, dailyWalkGo_sf_none]
    constructor
    · intro h i hi
      rw [← hsum i]
      exact h i (by omega)
    · intro h j hj
      rw [hsum j]
      exact h j (by omega)
  · intro i0 hi0 hneg hpos
    rw [generateMockForecast_sf]
    have h := dailyWalkGo_sf_first (toDays today)
      (finalTx today now incs exps prof)
      (effectiveProjectionDays today incs exps + 1) 0 cb i0
      (by omega)
      (by rw [hsum i0]; exact hneg)
      (by
        intro j hj
        rw [hsum j]
        exact hpos j hj)
    rw [h, Nat.zero_add]

/-- C2 witness: with balance 0 and an expense of 100 due tomorrow, the
shortfall date is tomorrow. -/
theorem C2_witness :
    (generateMockForecast sampleToday 0 0 [] [c2Expense]
      none).potentialShortfallDate = some (toDays sampleToday + 1) := by
  have hF : finalTx sampleToday 0 [] [c2Expense] none =
      baseTx (toDays sampleToday) [] [c2Expense] := rfl
  have he : expenseEligible (toDays sampleToday) c2Expense = true := by decide
  have hd : toDays c2Expense.date = toDays sampleToday + 1 := by decide
  have hfx : ∀ key : Nat, baseTx (toDays sampleToday) [] [c2Expense] key =
      if key = toDays sampleToday + 1 then (0 : ℚ) - 100 else 0 := by
    intro key
    unfold baseTx
    simp only [List.foldl_nil, List.foldl_cons]
    rw [if_pos he, hd]
    rfl
  have hrb : ∀ j : Nat, runningBalance sampleToday 0 0 [] [c2Expense] none j =
      if 1 ≤ j then (0 : ℚ) - 100 else 0 := by
    intro j
    unfold runningBalance
    rw [hF]
    have hcong : (Finset.range (j + 1)).sum
        (fun t => baseTx (toDays sampleToday) [] [c2Expense]
          (toDays sampleToday + t)) =
        (Finset.range (j + 1)).sum
          (fun t => if t = 1 then (0 : ℚ) - 100 else 0) := by
      apply Finset.sum_congr rfl
      intro t _
      rw [hfx]
      by_cases ht : t = 1
      · subst ht
        rw [if_pos rfl, if_pos (by omega)]
      · rw [if_neg (by omega), if_neg ht]
    rw [hcong,
      Finset.sum_ite_eq' (Finset.range (j + 1)) 1 (fun _ => (0 : ℚ) - 100)]
    simp only [Finset.mem_range]
    by_cases hj : 1 ≤ j
    · rw [if_pos (by omega), if_pos hj]
      ring
    · rw [if_neg (by omega), if_neg hj]
      ring
  exact (C2_shortfall_first_negative sampleToday 0 0 [] [c2Expense] none).2 1
    (by decide) (by rw [hrb]; norm_num) (by
      intro j hj
      have hj0 : j = 0 := by omega
      subst hj0
      rw [hrb]
      norm_num)

/-- Helper for C10: a loan whose next payment date is strictly before
today never matches any walk day, so it neither changes the aggregation
map nor advances its schedule. -/
theorem loanGo_past_due (todayKey : Nat) (a : ℚ) (f : LoanFrequency)
    (days : Nat) (tx : Nat → ℚ) (p : CalDate)
    (h : toDays p < todayKey) :
    loanGo todayKey a f (List.range days) tx p = (tx, p) := by
  apply loanGo_no_match
  intro i _
  omega

/-- C10: for every loan whose midnight-normalized next payment date is
strictly before today, the engine subtracts nothing for that loan on any
day of the horizon and never advances its schedule: removing the loan
leaves the whole output unchanged, and the loan-walk state keeps the
stored next payment date. -/
theorem C10_past_due_loan_inert (today : CalDate) (now : Nat) (cb : ℚ)
    (incs : List IncomeItem) (exps : List ExpenseItem) (up : UserProfile)
    (l1 l2 : List LoanItem) (loan : LoanItem)
    (hloans : up.loans = l1 ++ loan :: l2)
    (hpast : toDays loan.nextPaymentDate < toDays today) :
    generateMockForecast today now cb incs exps (some up) =
      generateMockForecast today now cb incs exps
        (some { up with loans := l1 ++ l2 }) ∧
    (∀ (tx : Nat → ℚ) (days : Nat),
      loanGo (toDays today) loan.amount loan.paymentFrequency
        (List.range days) tx loan.nextPaymentDate = (tx, loan.nextPaymentDate)) := by
  constructor
  · have hloanstx : ∀ tx : Nat → ℚ,
        loansTx today (effectiveProjectionDays today incs exps) tx (some up) =
        loansTx today (effectiveProjectionDays today incs exps) tx
          (some { up with loans := l1 ++ l2 }) := by
      intro tx
      unfold loansTx
      dsimp only
      rw [hloans, List.foldl_append, List.foldl_cons, List.foldl_append]
      have hmid : ∀ t : Nat → ℚ,
          loanWalk (toDays today) (effectiveProjectionDays today incs exps)
            loan t = t := by
        intro t
        unfold loanWalk
        rw [loanGo_past_due _ _ _ _ _ _ hpast]
      rw [hmid]
    have hsal : salaryResult today now (effectiveProjectionDays today incs exps)
        (baseTx (toDays today) incs exps) (some { up with loans := l1 ++ l2 }) =
        salaryResult today now (effectiveProjectionDays today incs exps)
          (baseTx (toDays today) incs exps) (some up) := rfl
    unfold generateMockForecast
    dsimp only
    rw [hloanstx, hsal]
  · intro tx days
    exact loanGo_past_due _ _ _ _ _ _ hpast

/-- C10 witness at a concrete input: a loan due 2024-12-31 with today
2025-01-01 changes nothing. -/
theorem C10_witness :
    generateMockForecast sampleToday 0 5 [] []
        (some { c4Profile with salaryIncome := 0, loans := [c10Loan] }) =
      generateMockForecast sampleToday 0 5 [] []
        (some { c4Profile with salaryIncome := 0, loans := ([] : List LoanItem) }) :=
  (C10_past_due_loan_inert sampleToday 0 5 [] []
    { c4Profile with salaryIncome := 0, loans := [c10Loan] }
    [] [] c10Loan rfl (by decide)).1

/-- C4 (amended): for every profile with monthly salary frequency, gross
salary 30000 and deductions summing to 5000, every synthetic salary event
has amount 25000 (net salary over 1 pay period per month); each event date
falls either on the 15th of a month or on the LAST day of a month — the
month-overflow clamp of the payday rule emits an end-of-month payday
whenever the search cursor is past the 15th — and every event lies within
`horizonEnd + 1` day. -/
theorem C4_monthly_salary_events (today : CalDate) (hWF : WF today)
    (now : Nat) (cb : ℚ) (incs : List IncomeItem) (exps : List ExpenseItem)
    (up : UserProfile)
    (hfreq : up.salaryFrequency = .monthly)
    (hsal : up.salaryIncome = 30000)
    (hded : up.deductions.foldl (fun s d => s + d.amount) 0 = 5000)
    (ev : IncomeItem)
    (hev : ev ∈ (generateMockForecast today now cb incs exps
      (some up)).projectedSalaryPayments) :
    ev.amount = 25000 ∧
    (ev.dueDate.day = 15 ∨
      ev.dueDate.day = daysInMonth ev.dueDate.year ev.dueDate.month) ∧
    toDays ev.dueDate ≤
      toDays today + effectiveProjectionDays today incs exps + 1 := by
  rw [generateMockForecast_events] at hev
  unfold salaryResult at hev
  dsimp only at hev
  rw [hfreq, hsal, hded] at hev
  rw [if_pos (by norm_num)] at hev
  have hper : ((30000 : ℚ) - 5000) / numPayrollsPerMonth .monthly = 25000 := by
    norm_num [numPayrollsPerMonth]
  rw [hper] at hev
  exact salaryLoop_monthly_events 25000
    (toDays today + effectiveProjectionDays today incs exps + 1) now 100
    today 0 (baseTx (toDays today) incs exps) [] hWF
    (fun e he => absurd he (List.not_mem_nil e)) ev hev

set_option maxRecDepth 100000 in
/-- C4 counterexample: at the concrete input (today 2025-01-01, monthly
profile with gross 30000 and deductions 5000) the second synthetic salary
event falls on 2025-01-31, so not every event date is the 15th. -/
theorem C4_counterexample :
    ¬ (∀ ev ∈ (generateMockForecast sampleToday 0 100 [] []
        (some c4Profile)).projectedSalaryPayments, ev.dueDate.day = 15) := by
  decide

set_option maxRecDepth 100000 in
/-- C4 witness: the second generated event at the concrete input has
amount 25000 and falls on the last day of its month within the horizon. -/
theorem C4_witness :
    ((generateMockForecast sampleToday 0 100 [] []
        (some c4Profile)).projectedSalaryPayments.getD 1
        c4SecondEvent).amount = 25000 ∧
    (((generateMockForecast sampleToday 0 100 [] []
        (some c4Profile)).projectedSalaryPayments.getD 1
        c4SecondEvent).dueDate.day = 15 ∨
      ((generateMockForecast sampleToday 0 100 [] []
        (some c4Profile)).projectedSalaryPayments.getD 1
        c4SecondEvent).dueDate.day =
        daysInMonth
          ((generateMockForecast sampleToday 0 100 [] []
            (some c4Profile)).projectedSalaryPayments.getD 1
            c4SecondEvent).dueDate.year
          ((generateMockForecast sampleToday 0 100 [] []
            (some c4Profile)).projectedSalaryPayments.getD 1
            c4SecondEvent).dueDate.month) ∧
    toDays ((generateMockForecast sampleToday 0 100 [] []
        (some c4Profile)).projectedSalaryPayments.getD 1
        c4SecondEvent).dueDate ≤
      toDays sampleToday + effectiveProjectionDays sampleToday [] [] + 1 := by
  have hlen : 1 < (generateMockForecast sampleToday 0 100 [] []
      (some c4Profile)).projectedSalaryPayments.length := by decide
  have hmem : (generateMockForecast sampleToday 0 100 [] []
      (some c4Profile)).projectedSalaryPayments.getD 1 c4SecondEvent ∈
      (generateMockForecast sampleToday 0 100 [] []
        (some c4Profile)).projectedSalaryPayments := by
    rw [List.getD_eq_getElem _ _ hlen]
    exact List.getElem_mem hlen
  exact C4_monthly_salary_events sampleToday (by decide) 0 100 [] []
    c4Profile rfl rfl (by simp [c4Profile]) _ hmem

/-- Loan walk over a contiguous block of day offsets that never reach the
pending payment date: the state is unchanged. -/
theorem loanGo_skip (tk : Nat) (a : ℚ) (f : LoanFrequency) :
    ∀ (n s : Nat) (tx : Nat → ℚ) (p : CalDate),
      (∀ i, s ≤ i → i < s + n → tk + i ≠ toDays p) →
      loanGo tk a f (List.range' s n) tx p = (tx, p) := by
  intro n
  induction n with
  | zero =>
    intro s tx p _
    rfl
  | succ n ih =>
    intro s tx p h
    rw [List.range'_succ, loanGo_cons, if_neg (h s (Nat.le_refl s) (by omega))]
    exact ih (s + 1) tx p (fun i h1 h2 => h i (by omega) (by omega))

set_option maxRecDepth 100000 in
set_option maxHeartbeats 3000000 in
/-- C5 (amended): with a monthly loan of 2000 whose next payment is three
days after today, and an expense extending the horizon to 40 days, the
aggregation map carries −2000 at day 3, and a second −2000 exactly one
calendar month after the first payment date — at day offset
`3 + daysInMonth(month of today+3)`, not at a fixed day count.  (With only
the minimal 30-day horizon the second payment falls outside the walk; see
the counterexample.) -/
theorem C5_monthly_loan_recurrence (today : CalDate) (hWF : WF today) :
    effectiveProjectionDays today [] [c5Expense today] = 40 ∧
    toDays (advanceLoanDate .monthly (addDays today 3)) =
      toDays today + 3 + daysInMonth (addDays today 3).year (addDays today 3).month ∧
    finalTx today 0 [] [c5Expense today] (some (c5Profile today))
      (toDays today + 3) = -2000 ∧
    finalTx today 0 [] [c5Expense today] (some (c5Profile today))
      (toDays today + 3 + daysInMonth (addDays today 3).year (addDays today 3).month) = -2000 := by
  have hp0 : WF (addDays today 3) := addDays_WF today hWF 3
  have htp0 : toDays (addDays today 3) = toDays today + 3 :=
    toDays_addDays today hWF 3
  have hL1 : 28 ≤ daysInMonth (addDays today 3).year (addDays today 3).month := daysInMonth_ge _ _
  have hL2 : daysInMonth (addDays today 3).year (addDays today 3).month ≤ 31 := daysInMonth_le _ _
  have hmon : ∀ p : CalDate,
      advanceLoanDate .monthly p = setMonthJS p (p.month + 1) := fun _ => rfl
  have hadv : toDays (advanceLoanDate .monthly (addDays today 3)) =
      toDays today + 3 + daysInMonth (addDays today 3).year (addDays today 3).month := by
    rw [hmon, toDays_advance_monthly _ hp0, htp0]
  have hp1 : WF (advanceLoanDate .monthly (addDays today 3)) :=
    advanceLoanDate_WF _ _
  have hadv2 : toDays today + 43 ≤
      toDays (advanceLoanDate .monthly
        (advanceLoanDate .monthly (addDays today 3))) := by
    rw [hmon (advanceLoanDate .monthly (addDays today 3)),
      toDays_advance_monthly _ hp1, hadv]
    have h28 := daysInMonth_ge
      (advanceLoanDate .monthly (addDays today 3)).year
      (advanceLoanDate .monthly (addDays today 3)).month
    omega
  have hexpd : (c5Expense today).date = addDays today 40 := by
    simp only [c5Expense]
  have hexp : toDays (c5Expense today).date = toDays today + 40 := by
    rw [hexpd]
    exact toDays_addDays today hWF 40
  have helig : expenseEligible (toDays today) (c5Expense today) = true := by
    unfold expenseEligible
    rw [hexp, Nat.ble_eq]
    omega
  have heff : effectiveProjectionDays today [] [c5Expense today] = 40 := by
    unfold effectiveProjectionDays maxRelevantDate
    simp only [List.foldl_nil, List.foldl_cons]
    rw [if_pos (by rw [helig, hexp, Bool.true_and, Nat.blt_eq]; omega), hexp]
    omega
  have hbase : ∀ key : Nat, key ≠ toDays today + 40 →
      baseTx (toDays today) [] [c5Expense today] key = 0 := by
    intro key hk
    unfold baseTx
    simp only [List.foldl_nil, List.foldl_cons]
    rw [if_pos helig, hexp]
    rw [if_neg hk]
  have hfinal : finalTx today 0 [] [c5Expense today] (some (c5Profile today)) =
      (loanGo (toDays today) 2000 .monthly (List.range 41)
        (baseTx (toDays today) [] [c5Expense today]) (addDays today 3)).1 := by
    unfold finalTx loansTx salaryResult loanWalk c5Profile c5Loan
    dsimp only
    rw [heff]
    rw [if_neg (lt_irrefl (0 : ℚ))]
    simp only [List.foldl_cons, List.foldl_nil]
  have e1 : List.range' 0 41 = List.range' 0 3 ++ List.range' 3 38 := by
    have h := List.range'_append 0 3 38 1
    norm_num at h
    exact h.symm
  have e2 : List.range' 3 38 = List.range' 3 1 ++ List.range' 4 37 := by
    have h := List.range'_append 3 1 37 1
    norm_num at h
    exact h.symm
  have e3 : List.range' 4 37 =
      List.range' 4 (daysInMonth (addDays today 3).year (addDays today 3).month - 1) ++
        List.range' (3 + daysInMonth (addDays today 3).year (addDays today 3).month) (38 - daysInMonth (addDays today 3).year (addDays today 3).month) := by
    have h := List.range'_append 4 (daysInMonth (addDays today 3).year (addDays today 3).month - 1)
      (38 - daysInMonth (addDays today 3).year (addDays today 3).month) 1
    have ha : 4 + 1 * (daysInMonth (addDays today 3).year (addDays today 3).month - 1) = 3 + daysInMonth (addDays today 3).year (addDays today 3).month := by omega
    have hb : 38 - daysInMonth (addDays today 3).year (addDays today 3).month + (daysInMonth (addDays today 3).year (addDays today 3).month - 1) = 37 := by omega
    rw [ha, hb] at h
    exact h.symm
  have e4 : List.range' (3 + daysInMonth (addDays today 3).year (addDays today 3).month) (38 - daysInMonth (addDays today 3).year (addDays today 3).month) =
      List.range' (3 + daysInMonth (addDays today 3).year (addDays today 3).month) 1 ++
        List.range' (4 + daysInMonth (addDays today 3).year (addDays today 3).month) (37 - daysInMonth (addDays today 3).year (addDays today 3).month) := by
    have h := List.range'_append (3 + daysInMonth (addDays today 3).year (addDays today 3).month) 1
      (37 - daysInMonth (addDays today 3).year (addDays today 3).month) 1
    have ha : 3 + daysInMonth (addDays today 3).year (addDays today 3).month + 1 * 1 = 4 + daysInMonth (addDays today 3).year (addDays today 3).month := by omega
    have hb : 37 - daysInMonth (addDays today 3).year (addDays today 3).month + 1 = 38 - daysInMonth (addDays today 3).year (addDays today 3).month := by omega
    rw [ha, hb] at h
    exact h.symm
  have hrange : List.range 41 = List.range' 0 3 ++ (List.range' 3 1 ++
      (List.range' 4 (daysInMonth (addDays today 3).year (addDays today 3).month - 1) ++
        (List.range' (3 + daysInMonth (addDays today 3).year (addDays today 3).month) 1 ++
          List.range' (4 + daysInMonth (addDays today 3).year (addDays today 3).month) (37 - daysInMonth (addDays today 3).year (addDays today 3).month)))) := by
    rw [List.range_eq_range', e1, e2, e3, e4]
  have hsegA : loanGo (toDays today) 2000 .monthly (List.range' 0 3)
      (baseTx (toDays today) [] [c5Expense today]) (addDays today 3) =
      (baseTx (toDays today) [] [c5Expense today], addDays today 3) :=
    loanGo_skip _ _ _ 3 0 _ _ (by intro i h1 h2; rw [htp0]; omega)
  have hstep1 : loanGo (toDays today) 2000 .monthly (List.range' 3 1)
      (baseTx (toDays today) [] [c5Expense today]) (addDays today 3) =
      ((fun k => if k = toDays today + 3 then baseTx (toDays today) [] [c5Expense today] k - 2000 else baseTx (toDays today) [] [c5Expense today] k), advanceLoanDate .monthly (addDays today 3)) := by
    have h1 : List.range' 3 1 = [3] := rfl
    rw [h1, loanGo_cons, if_pos htp0.symm]
    rfl
  have hsegB : loanGo (toDays today) 2000 .monthly
      (List.range' 4 (daysInMonth (addDays today 3).year (addDays today 3).month - 1))
      (fun k => if k = toDays today + 3 then baseTx (toDays today) [] [c5Expense today] k - 2000 else baseTx (toDays today) [] [c5Expense today] k) (advanceLoanDate .monthly (addDays today 3)) =
      ((fun k => if k = toDays today + 3 then baseTx (toDays today) [] [c5Expense today] k - 2000 else baseTx (toDays today) [] [c5Expense today] k), advanceLoanDate .monthly (addDays today 3)) :=
    loanGo_skip _ _ _ _ 4 _ _ (by intro i h1 h2; rw [hadv]; omega)
  have hstep2 : loanGo (toDays today) 2000 .monthly
      (List.range' (3 + daysInMonth (addDays today 3).year (addDays today 3).month) 1)
      (fun k => if k = toDays today + 3 then baseTx (toDays today) [] [c5Expense today] k - 2000 else baseTx (toDays today) [] [c5Expense today] k) (advanceLoanDate .monthly (addDays today 3)) =
      ((fun k => if k = toDays today + (3 + daysInMonth (addDays today 3).year (addDays today 3).month) then
          (fun k => if k = toDays today + 3 then baseTx (toDays today) [] [c5Expense today] k - 2000 else baseTx (toDays today) [] [c5Expense today] k) k - 2000 else (fun k => if k = toDays today + 3 then baseTx (toDays today) [] [c5Expense today] k - 2000 else baseTx (toDays today) [] [c5Expense today] k) k),
        advanceLoanDate .monthly (advanceLoanDate .monthly (addDays today 3))) := by
    have h1 : List.range' (3 + daysInMonth (addDays today 3).year (addDays today 3).month) 1 =
        [3 + daysInMonth (addDays today 3).year (addDays today 3).month] := rfl
    rw [h1, loanGo_cons, if_pos (by rw [hadv]; omega)]
    rfl
  have hsegC : loanGo (toDays today) 2000 .monthly
      (List.range' (4 + daysInMonth (addDays today 3).year (addDays today 3).month) (37 - daysInMonth (addDays today 3).year (addDays today 3).month))
      (fun k => if k = toDays today + (3 + daysInMonth (addDays today 3).year (addDays today 3).month) then
          (fun k => if k = toDays today + 3 then baseTx (toDays today) [] [c5Expense today] k - 2000 else baseTx (toDays today) [] [c5Expense today] k) k - 2000 else (fun k => if k = toDays today + 3 then baseTx (toDays today) [] [c5Expense today] k - 2000 else baseTx (toDays today) [] [c5Expense today] k) k)
      (advanceLoanDate .monthly (advanceLoanDate .monthly (addDays today 3))) =
      ((fun k => if k = toDays today + (3 + daysInMonth (addDays today 3).year (addDays today 3).month) then
          (fun k => if k = toDays today + 3 then baseTx (toDays today) [] [c5Expense today] k - 2000 else baseTx (toDays today) [] [c5Expense today] k) k - 2000 else (fun k => if k = toDays today + 3 then baseTx (toDays today) [] [c5Expense today] k - 2000 else baseTx (toDays today) [] [c5Expense today] k) k),
        advanceLoanDate .monthly (advanceLoanDate .monthly (addDays today 3))) :=
    loanGo_skip _ _ _ _ _ _ _ (by intro i h1 h2; omega)
  have hgo : (loanGo (toDays today) 2000 .monthly (List.range 41)
      (baseTx (toDays today) [] [c5Expense today]) (addDays today 3)).1 =
      (fun k => if k = toDays today + (3 + daysInMonth (addDays today 3).year (addDays today 3).month) then
          (fun k => if k = toDays today + 3 then baseTx (toDays today) [] [c5Expense today] k - 2000 else baseTx (toDays today) [] [c5Expense today] k) k - 2000 else (fun k => if k = toDays today + 3 then baseTx (toDays today) [] [c5Expense today] k - 2000 else baseTx (toDays today) [] [c5Expense today] k) k) := by
    rw [hrange, loanGo_append, hsegA]
    dsimp only
    rw [loanGo_append, hstep1]
    dsimp only
    rw [loanGo_append, hsegB]
    dsimp only
    rw [loanGo_append, hstep2]
    dsimp only
    rw [hsegC]
  refine ⟨heff, hadv, ?_, ?_⟩
  · rw [hfinal, hgo]
    dsimp only
    rw [if_neg (by omega), if_pos rfl, hbase (toDays today + 3) (by omega)]
    norm_num
  · rw [hfinal, hgo]
    dsimp only
    rw [if_pos (by omega), if_neg (by omega),
      hbase (toDays today + 3 + daysInMonth (addDays today 3).year (addDays today 3).month) (by omega)]
    norm_num

set_option maxRecDepth 100000 in
/-- C5 counterexample: with the loan alone (no incomes, no expenses) the
horizon is the 30-day minimum; the walk records −2000 at day 3 and the
aggregation carries nothing on any other day up to 60 days out — in
particular no second −2000 appears roughly one calendar month later,
because the second payment date falls beyond the walked horizon. -/
theorem C5_counterexample :
    effectiveProjectionDays sampleToday [] [] = 30 ∧
    finalTx sampleToday 0 [] [] (some (c5Profile sampleToday))
      (toDays sampleToday + 3) = -2000 ∧
    ∀ k ≤ 60, k ≠ 3 → finalTx sampleToday 0 [] []
      (some (c5Profile sampleToday)) (toDays sampleToday + k) = 0 := by
  have htp0 : toDays (addDays sampleToday 3) = toDays sampleToday + 3 := by
    decide
  have hadv : toDays (advanceLoanDate .monthly (addDays sampleToday 3)) =
      toDays sampleToday + 34 := by decide
  have hfinal : finalTx sampleToday 0 [] [] (some (c5Profile sampleToday)) =
      (loanGo (toDays sampleToday) 2000 .monthly (List.range 31)
        (fun _ => (0 : ℚ)) (addDays sampleToday 3)).1 := by
    unfold finalTx loansTx salaryResult loanWalk c5Profile c5Loan
    dsimp only
    rw [effectiveProjectionDays_nil]
    rw [if_neg (lt_irrefl (0 : ℚ))]
    simp only [List.foldl_cons, List.foldl_nil]
    rfl
  have hrange : List.range 31 =
      List.range' 0 3 ++ (List.range' 3 1 ++ List.range' 4 27) := by
    have h1 := List.range'_append 0 3 28 1
    norm_num at h1
    have h2 := List.range'_append 3 1 27 1
    norm_num at h2
    rw [List.range_eq_range', ← h1, ← h2]
    rfl
  have hsegA : loanGo (toDays sampleToday) 2000 .monthly (List.range' 0 3)
      (fun _ => (0 : ℚ)) (addDays sampleToday 3) =
      ((fun _ => (0 : ℚ)), addDays sampleToday 3) :=
    loanGo_skip _ _ _ 3 0 _ _ (by intro i h1 h2; rw [htp0]; omega)
  have hstep : loanGo (toDays sampleToday) 2000 .monthly (List.range' 3 1)
      (fun _ => (0 : ℚ)) (addDays sampleToday 3) =
      ((fun k => if k = toDays sampleToday + 3 then (fun _ => (0 : ℚ)) k - 2000 else (fun _ => (0 : ℚ)) k),
        advanceLoanDate .monthly (addDays sampleToday 3)) := by
    have h1 : List.range' 3 1 = [3] := rfl
    rw [h1, loanGo_cons, if_pos htp0.symm]
    rfl
  have hsegB : loanGo (toDays sampleToday) 2000 .monthly (List.range' 4 27)
      (fun k => if k = toDays sampleToday + 3 then (fun _ => (0 : ℚ)) k - 2000 else (fun _ => (0 : ℚ)) k)
      (advanceLoanDate .monthly (addDays sampleToday 3)) =
      ((fun k => if k = toDays sampleToday + 3 then (fun _ => (0 : ℚ)) k - 2000 else (fun _ => (0 : ℚ)) k),
        advanceLoanDate .monthly (addDays sampleToday 3)) :=
    loanGo_skip _ _ _ 27 4 _ _ (by intro i h1 h2; rw [hadv]; omega)
  have hgo : (loanGo (toDays sampleToday) 2000 .monthly (List.range 31)
      (fun _ => (0 : ℚ)) (addDays sampleToday 3)).1 =
      (fun k => if k = toDays sampleToday + 3 then (fun _ => (0 : ℚ)) k - 2000 else (fun _ => (0 : ℚ)) k) := by
    rw [hrange, loanGo_append, hsegA]
    dsimp only
    rw [loanGo_append, hstep]
    dsimp only
    rw [hsegB]
  refine ⟨effectiveProjectionDays_nil sampleToday, ?_, ?_⟩
  · rw [hfinal, hgo]
    dsimp only
    rw [if_pos rfl]
    norm_num
  · intro k hk hk3
    rw [hfinal, hgo]
    dsimp only
    rw [if_neg (by omega)]

/-- C5 witness at the concrete today 2025-01-01. -/
theorem C5_witness :
    effectiveProjectionDays sampleToday [] [c5Expense sampleToday] = 40 ∧
    toDays (advanceLoanDate .monthly (addDays sampleToday 3)) =
      toDays sampleToday + 3 +
        daysInMonth (addDays sampleToday 3).year (addDays sampleToday 3).month ∧
    finalTx sampleToday 0 [] [c5Expense sampleToday]
      (some (c5Profile sampleToday)) (toDays sampleToday + 3) = -2000 ∧
    finalTx sampleToday 0 [] [c5Expense sampleToday]
      (some (c5Profile sampleToday))
      (toDays sampleToday + 3 +
        daysInMonth (addDays sampleToday 3).year (addDays sampleToday 3).month) =
      -2000 :=
  C5_monthly_loan_recurrence sampleToday (by decide)

/-- C9 witness at a concrete input. -/
theorem C9_witness :
    (generateMockForecast sampleToday 0 5 [] []
      (some c4Profile)).projectedSalaryPayments.length ≤ 100 :=
  (C9_bounded sampleToday 0 5 [] [] (some c4Profile)).1

end Spenditure
